import Mathlib

/-!
Verification development for the Simbody `MatterSubsystem` layer
(`src/include/simbody/internal/MatterSubsystem.h`).

The repository ships the header only: the inline "friendly interface"
methods (mass-property reexpression, station location/velocity queries,
`resetForces`) are genuine source code and are embedded here directly.
The concrete-class entry points (`getBodyPosition`, `setMobilizerQ`,
`projectQConstraints`, ...) are declarations whose bodies live outside the
repository; those are modelled from the natural-language specification,
each such definition carrying a doc comment starting
"Modelled from the spec:".

All scalar arithmetic is embedded over `ℚ`, modelling the exact real
arithmetic of the formulas; "within floating tolerance" claims become
exact equalities.  The weighted norm `sqrt(eᵗWe)` is handled without a
square root: a comparison `‖e‖_W ≤ t` is embedded as
`0 ≤ t ∧ eᵗWe ≤ t·t`, which is equivalent for the nonnegative norm.
-/

/-- A 3-vector with rational components, embedding SimTK `Vec3`. -/
structure Vec3 where
  x : ℚ
  y : ℚ
  z : ℚ
deriving DecidableEq, Repr

/-- Componentwise addition of 3-vectors. -/
def Vec3.add (a b : Vec3) : Vec3 := ⟨a.x + b.x, a.y + b.y, a.z + b.z⟩

/-- Componentwise subtraction of 3-vectors. -/
def Vec3.sub (a b : Vec3) : Vec3 := ⟨a.x - b.x, a.y - b.y, a.z - b.z⟩

/-- Componentwise negation of a 3-vector. -/
def Vec3.neg (a : Vec3) : Vec3 := ⟨-a.x, -a.y, -a.z⟩

/-- The zero 3-vector. -/
def Vec3.zero : Vec3 := ⟨0, 0, 0⟩

/-- Dot product of two 3-vectors. -/
def Vec3.dot (a b : Vec3) : ℚ := a.x * b.x + a.y * b.y + a.z * b.z

/-- Cross product of two 3-vectors (the C++ `%` operator on `Vec3`). -/
def Vec3.cross (a b : Vec3) : Vec3 :=
  ⟨a.y * b.z - a.z * b.y, a.z * b.x - a.x * b.z, a.x * b.y - a.y * b.x⟩

/-- A 3×3 matrix stored as three rows, embedding SimTK `Mat33` /
`Rotation` (a rotation is a `Mat33` kept orthonormal, see `IsRot`). -/
structure Mat33 where
  r0 : Vec3
  r1 : Vec3
  r2 : Vec3
deriving DecidableEq, Repr

/-- Transpose of a 3×3 matrix. -/
def Mat33.transpose (m : Mat33) : Mat33 :=
  ⟨⟨m.r0.x, m.r1.x, m.r2.x⟩, ⟨m.r0.y, m.r1.y, m.r2.y⟩, ⟨m.r0.z, m.r1.z, m.r2.z⟩⟩

/-- Matrix-vector product. -/
def Mat33.mulVec (m : Mat33) (v : Vec3) : Vec3 :=
  ⟨m.r0.dot v, m.r1.dot v, m.r2.dot v⟩

/-- Matrix-matrix product. -/
def Mat33.mul (a b : Mat33) : Mat33 :=
  ⟨⟨a.r0.dot b.transpose.r0, a.r0.dot b.transpose.r1, a.r0.dot b.transpose.r2⟩,
   ⟨a.r1.dot b.transpose.r0, a.r1.dot b.transpose.r1, a.r1.dot b.transpose.r2⟩,
   ⟨a.r2.dot b.transpose.r0, a.r2.dot b.transpose.r1, a.r2.dot b.transpose.r2⟩⟩

/-- The 3×3 identity matrix. -/
def Mat33.identity : Mat33 := ⟨⟨1, 0, 0⟩, ⟨0, 1, 0⟩, ⟨0, 0, 1⟩⟩

/-- Orthonormality of a rotation matrix: the invariant the spec demands of
every stored rotation ("storing transforms as (orthonormal rotation,
translation) pairs"). -/
def IsRot (m : Mat33) : Prop :=
  m.transpose.mul m = Mat33.identity ∧ m.mul m.transpose = Mat33.identity

/-- A rigid transform stored as (rotation, translation), embedding SimTK
`Transform`: `R` is `X.R()` and `T` is `X.T()`. -/
structure Transform where
  R : Mat33
  T : Vec3
deriving DecidableEq, Repr

/-- Apply a transform to a point: `X*p = R*p + T`. -/
def Transform.apply (X : Transform) (p : Vec3) : Vec3 :=
  (X.R.mulVec p).add X.T

/-- Inverse of a rigid transform (the C++ `~X`): `(Rᵗ, -(Rᵗ T))`. -/
def Transform.inverse (X : Transform) : Transform :=
  ⟨X.R.transpose, (X.R.transpose.mulVec X.T).neg⟩

/-- Composition of rigid transforms `X_AC = X_AB · X_BC`: rotation
composition and translation transport `T_AC = T_AB + R_AB·T_BC`. -/
def Transform.compose (X Y : Transform) : Transform :=
  ⟨X.R.mul Y.R, X.T.add (X.R.mulVec Y.T)⟩

/-- The identity transform. -/
def Transform.identity : Transform := ⟨Mat33.identity, Vec3.zero⟩

/-- A spatial velocity `V = {w, v}`: angular part then linear part,
embedding SimTK `SpatialVec`.  `w` is `V[0]` and `v` is `V[1]`. -/
structure SpatialVec where
  w : Vec3
  v : Vec3
deriving DecidableEq, Repr

/-- Componentwise difference of spatial vectors. -/
def SpatialVec.sub (a b : SpatialVec) : SpatialVec :=
  ⟨a.w.sub b.w, a.v.sub b.v⟩

/-- The zero spatial vector. -/
def SpatialVec.zero : SpatialVec := ⟨Vec3.zero, Vec3.zero⟩

theorem Vec3.add_assoc (a b c : Vec3) : (a.add b).add c = a.add (b.add c) := by
  cases a; cases b; cases c
  simp only [Vec3.add, Vec3.mk.injEq]
  refine ⟨by ring, by ring, by ring⟩

theorem Vec3.add_zero (a : Vec3) : a.add Vec3.zero = a := by
  cases a
  simp only [Vec3.add, Vec3.zero, Vec3.mk.injEq]
  refine ⟨by ring, by ring, by ring⟩

theorem Vec3.zero_add (a : Vec3) : Vec3.zero.add a = a := by
  cases a
  simp only [Vec3.add, Vec3.zero, Vec3.mk.injEq]
  refine ⟨by ring, by ring, by ring⟩

theorem Vec3.add_neg_self (a : Vec3) : a.add a.neg = Vec3.zero := by
  cases a
  simp only [Vec3.add, Vec3.neg, Vec3.zero, Vec3.mk.injEq]
  refine ⟨by ring, by ring, by ring⟩

theorem Vec3.neg_add_self (a : Vec3) : a.neg.add a = Vec3.zero := by
  cases a
  simp only [Vec3.add, Vec3.neg, Vec3.zero, Vec3.mk.injEq]
  refine ⟨by ring, by ring, by ring⟩

theorem Vec3.sub_self (a : Vec3) : a.sub a = Vec3.zero := by
  cases a
  simp only [Vec3.sub, Vec3.zero, Vec3.mk.injEq]
  refine ⟨by ring, by ring, by ring⟩

theorem Vec3.zero_cross (b : Vec3) : Vec3.zero.cross b = Vec3.zero := by
  cases b
  simp only [Vec3.cross, Vec3.zero, Vec3.mk.injEq]
  refine ⟨by ring, by ring, by ring⟩

theorem Mat33.mulVec_zero (m : Mat33) : m.mulVec Vec3.zero = Vec3.zero := by
  obtain ⟨⟨a, b, c⟩, ⟨d, e, f⟩, ⟨g, h, i⟩⟩ := m
  simp only [Mat33.mulVec, Vec3.dot, Vec3.zero, Vec3.mk.injEq]
  refine ⟨by ring, by ring, by ring⟩

theorem Mat33.mulVec_add (m : Mat33) (a b : Vec3) :
    m.mulVec (a.add b) = (m.mulVec a).add (m.mulVec b) := by
  obtain ⟨⟨m00, m01, m02⟩, ⟨m10, m11, m12⟩, ⟨m20, m21, m22⟩⟩ := m
  cases a; cases b
  simp only [Mat33.mulVec, Vec3.dot, Vec3.add, Vec3.mk.injEq]
  refine ⟨by ring, by ring, by ring⟩

theorem Mat33.mulVec_neg (m : Mat33) (a : Vec3) :
    m.mulVec a.neg = (m.mulVec a).neg := by
  obtain ⟨⟨m00, m01, m02⟩, ⟨m10, m11, m12⟩, ⟨m20, m21, m22⟩⟩ := m
  cases a
  simp only [Mat33.mulVec, Vec3.dot, Vec3.neg, Vec3.mk.injEq]
  refine ⟨by ring, by ring, by ring⟩

theorem Mat33.mulVec_mulVec (m n : Mat33) (v : Vec3) :
    m.mulVec (n.mulVec v) = (m.mul n).mulVec v := by
  obtain ⟨⟨m00, m01, m02⟩, ⟨m10, m11, m12⟩, ⟨m20, m21, m22⟩⟩ := m
  obtain ⟨⟨n00, n01, n02⟩, ⟨n10, n11, n12⟩, ⟨n20, n21, n22⟩⟩ := n
  cases v
  simp only [Mat33.mulVec, Mat33.mul, Mat33.transpose, Vec3.dot, Vec3.mk.injEq]
  refine ⟨by ring, by ring, by ring⟩

theorem Mat33.one_mulVec (v : Vec3) : Mat33.identity.mulVec v = v := by
  cases v
  simp only [Mat33.mulVec, Mat33.identity, Vec3.dot, Vec3.mk.injEq]
  refine ⟨by ring, by ring, by ring⟩

theorem Mat33.transpose_transpose (m : Mat33) : m.transpose.transpose = m := by
  obtain ⟨⟨m00, m01, m02⟩, ⟨m10, m11, m12⟩, ⟨m20, m21, m22⟩⟩ := m
  simp [Mat33.transpose]

theorem Mat33.transpose_mul (a b : Mat33) :
    (a.mul b).transpose = b.transpose.mul a.transpose := by
  obtain ⟨⟨m00, m01, m02⟩, ⟨m10, m11, m12⟩, ⟨m20, m21, m22⟩⟩ := a
  obtain ⟨⟨n00, n01, n02⟩, ⟨n10, n11, n12⟩, ⟨n20, n21, n22⟩⟩ := b
  simp only [Mat33.mul, Mat33.transpose, Vec3.dot, Mat33.mk.injEq, Vec3.mk.injEq]
  refine ⟨⟨by ring, by ring, by ring⟩, ⟨by ring, by ring, by ring⟩,
    by ring, by ring, by ring⟩

theorem Mat33.mul_assoc (a b c : Mat33) :
    (a.mul b).mul c = a.mul (b.mul c) := by
  obtain ⟨⟨m00, m01, m02⟩, ⟨m10, m11, m12⟩, ⟨m20, m21, m22⟩⟩ := a
  obtain ⟨⟨n00, n01, n02⟩, ⟨n10, n11, n12⟩, ⟨n20, n21, n22⟩⟩ := b
  obtain ⟨⟨p00, p01, p02⟩, ⟨p10, p11, p12⟩, ⟨p20, p21, p22⟩⟩ := c
  simp only [Mat33.mul, Mat33.transpose, Vec3.dot, Mat33.mk.injEq, Vec3.mk.injEq]
  refine ⟨⟨by ring, by ring, by ring⟩, ⟨by ring, by ring, by ring⟩,
    by ring, by ring, by ring⟩

theorem Mat33.one_mul (m : Mat33) : Mat33.identity.mul m = m := by
  obtain ⟨⟨m00, m01, m02⟩, ⟨m10, m11, m12⟩, ⟨m20, m21, m22⟩⟩ := m
  simp only [Mat33.mul, Mat33.identity, Mat33.transpose, Vec3.dot, Mat33.mk.injEq,
    Vec3.mk.injEq]
  refine ⟨⟨by ring, by ring, by ring⟩, ⟨by ring, by ring, by ring⟩,
    by ring, by ring, by ring⟩

theorem Mat33.mul_one (m : Mat33) : m.mul Mat33.identity = m := by
  obtain ⟨⟨m00, m01, m02⟩, ⟨m10, m11, m12⟩, ⟨m20, m21, m22⟩⟩ := m
  simp only [Mat33.mul, Mat33.identity, Mat33.transpose, Vec3.dot, Mat33.mk.injEq,
    Vec3.mk.injEq]
  refine ⟨⟨by ring, by ring, by ring⟩, ⟨by ring, by ring, by ring⟩,
    by ring, by ring, by ring⟩

theorem IsRot.transpose {m : Mat33} (h : IsRot m) : IsRot m.transpose := by
  refine ⟨?_, ?_⟩
  · rw [Mat33.transpose_transpose]; exact h.2
  · rw [Mat33.transpose_transpose]; exact h.1

theorem IsRot.mul {a b : Mat33} (ha : IsRot a) (hb : IsRot b) : IsRot (a.mul b) := by
  constructor
  · calc (a.mul b).transpose.mul (a.mul b)
        = (b.transpose.mul a.transpose).mul (a.mul b) := by rw [Mat33.transpose_mul]
      _ = b.transpose.mul (a.transpose.mul (a.mul b)) := by rw [Mat33.mul_assoc]
      _ = b.transpose.mul ((a.transpose.mul a).mul b) := by rw [Mat33.mul_assoc]
      _ = b.transpose.mul (Mat33.identity.mul b) := by rw [ha.1]
      _ = b.transpose.mul b := by rw [Mat33.one_mul]
      _ = Mat33.identity := hb.1
  · calc (a.mul b).mul (a.mul b).transpose
        = (a.mul b).mul (b.transpose.mul a.transpose) := by rw [Mat33.transpose_mul]
      _ = a.mul (b.mul (b.transpose.mul a.transpose)) := by rw [Mat33.mul_assoc]
      _ = a.mul ((b.mul b.transpose).mul a.transpose) := by rw [Mat33.mul_assoc]
      _ = a.mul (Mat33.identity.mul a.transpose) := by rw [hb.2]
      _ = a.mul a.transpose := by rw [Mat33.one_mul]
      _ = Mat33.identity := ha.2

/-- Round trip of a point through a rigid transform and its inverse. -/
theorem Transform.inverse_apply_apply (X : Transform) (h : IsRot X.R) (p : Vec3) :
    X.inverse.apply (X.apply p) = p := by
  calc X.inverse.apply (X.apply p)
      = (X.R.transpose.mulVec ((X.R.mulVec p).add X.T)).add
          ((X.R.transpose.mulVec X.T).neg) := rfl
    _ = ((X.R.transpose.mulVec (X.R.mulVec p)).add (X.R.transpose.mulVec X.T)).add
          ((X.R.transpose.mulVec X.T).neg) := by rw [Mat33.mulVec_add]
    _ = (X.R.transpose.mulVec (X.R.mulVec p)).add
          ((X.R.transpose.mulVec X.T).add ((X.R.transpose.mulVec X.T).neg)) := by
        rw [Vec3.add_assoc]
    _ = (X.R.transpose.mulVec (X.R.mulVec p)).add Vec3.zero := by
        rw [Vec3.add_neg_self]
    _ = X.R.transpose.mulVec (X.R.mulVec p) := by rw [Vec3.add_zero]
    _ = (X.R.transpose.mul X.R).mulVec p := by rw [Mat33.mulVec_mulVec]
    _ = Mat33.identity.mulVec p := by rw [h.1]
    _ = p := Mat33.one_mulVec p

/-- A rigid transform composed with its computed inverse is the identity. -/
theorem Transform.compose_inverse_self (X : Transform) (h : IsRot X.R) :
    X.compose X.inverse = Transform.identity := by
  show Transform.mk (X.R.mul X.R.transpose)
      (X.T.add (X.R.mulVec ((X.R.transpose.mulVec X.T).neg))) = Transform.identity
  rw [Mat33.mulVec_neg, Mat33.mulVec_mulVec, h.2, Mat33.one_mulVec, Vec3.add_neg_self]
  rfl

/-- The computed inverse composed with the original transform is the identity. -/
theorem Transform.inverse_compose_self (X : Transform) (h : IsRot X.R) :
    X.inverse.compose X = Transform.identity := by
  show Transform.mk (X.R.transpose.mul X.R)
      (((X.R.transpose.mulVec X.T).neg).add (X.R.transpose.mulVec X.T)) =
      Transform.identity
  rw [Vec3.neg_add_self, h.1]
  rfl

/-- Modelled from the spec: the ordered realization stages of §3
("Stages form a total order {Topology, Model, Instance, Time, Position,
Velocity, Dynamics, Acceleration}").  The `Stage` type itself is not in
the repository (it lives in SimTKcommon). -/
inductive Stage where
  | Topology
  | Model
  | Instance
  | Time
  | Position
  | Velocity
  | Dynamics
  | Acceleration
deriving DecidableEq, Repr

/-- Numeric rank of a stage in the total order. -/
def Stage.toNat : Stage → Nat
  | .Topology => 0
  | .Model => 1
  | .Instance => 2
  | .Time => 3
  | .Position => 4
  | .Velocity => 5
  | .Dynamics => 6
  | .Acceleration => 7

/-- Lower of two stages; used by invalidation, which only ever lowers
the realized stage. -/
def Stage.minWith (a b : Stage) : Stage :=
  if a.toNat ≤ b.toNat then a else b

/-- Errors of the §7 error-handling design: `StageViolation` names the
required and the actual stage; `DomainError` is an out-of-range body id
or mobility index. -/
inductive MSError where
  | StageViolation (required actual : Stage)
  | DomainError
deriving DecidableEq, Repr

/-- Mass, mass-center location from the body origin, and inertia about
the body origin, all expressed in the body's own frame (SimTK
`MassProperties`). -/
structure MassProperties where
  mass : ℚ
  com : Vec3
  inertia : Mat33
deriving DecidableEq, Repr

/-- Modelled from the spec: `MassProperties::reexpress(R_AB)` lives in
SimTKcommon, outside this repository.  Reexpression into frame B is the
§4.3 similarity transform: vectors pick up `R_ABᵗ`, the inertia picks up
`R_ABᵗ · I · R_AB`; the mass is frame-independent. -/
def MassProperties.reexpress (mp : MassProperties) (R_AB : Mat33) : MassProperties :=
  ⟨mp.mass, R_AB.transpose.mulVec mp.com, R_AB.transpose.mul (mp.inertia.mul R_AB)⟩

/-- Modelled from the spec: the §3 `State` with its realized-stage marker,
generalized coordinates/speeds, time, and the per-body `KinematicCache`
entries populated by the external realize hooks (the concrete `State`
class is in SimTKcommon, outside this repository). -/
structure MSState where
  stage : Stage
  t : ℚ
  q : List ℚ
  u : List ℚ
  massProps : List MassProperties
  bodyPos : List Transform
  bodyVel : List SpatialVec
deriving DecidableEq, Repr

/-- Modelled from the spec: the immutable topology-stage data a
`MatterSubsystem` answers `getNBodies`/`getNParticles`/`getNMobilities`
from, plus the flat offset of each body's mobilizer coordinates in `q`
(the concrete subsystem representation is outside this repository). -/
structure Matter where
  nBodies : Nat
  nParticles : Nat
  nMobilities : Nat
  qOffset : Nat → Nat

/-- Number of bodies, fixed by the BodyTree (includes Ground). -/
def getNBodies (m : Matter) : Nat := m.nBodies

/-- Number of particles, fixed by the BodyTree. -/
def getNParticles (m : Matter) : Nat := m.nParticles

/-- Number of mobilities, fixed by the BodyTree. -/
def getNMobilities (m : Matter) : Nat := m.nMobilities

/-- Ground is body id 0. -/
def GroundId : Nat := 0

/-- Modelled from the spec: `getBodyMassProperties` (declared at
MatterSubsystem.h:334, body not in the repository) extracts the
instance-stage mass properties from the cache; §4.4/§4.1: reading a
cached quantity above the realized stage raises a StageViolation naming
required vs. actual stage, and the read never recomputes. -/
def getBodyMassProperties (s : MSState) (b : Nat) : Except MSError MassProperties :=
  if Stage.Instance.toNat ≤ s.stage.toNat then
    match s.massProps.get? b with
    | some mp => .ok mp
    | none => .error .DomainError
  else .error (.StageViolation Stage.Instance s.stage)

/-- Modelled from the spec: `getBodyPosition` (declared at
MatterSubsystem.h:374, body not in the repository) extracts the
already-calculated transform `X_GB` from the state cache, available at
Position stage; reading above the realized stage raises a StageViolation
naming required vs. actual stage, never silently recomputing. -/
def getBodyPosition (s : MSState) (b : Nat) : Except MSError Transform :=
  if Stage.Position.toNat ≤ s.stage.toNat then
    match s.bodyPos.get? b with
    | some X => .ok X
    | none => .error .DomainError
  else .error (.StageViolation Stage.Position s.stage)

/-- Modelled from the spec: `getBodyVelocity` (declared at
MatterSubsystem.h:436, body not in the repository) extracts the
already-calculated spatial velocity `V_GB = {w_GB, v_GB}` from the state
cache, available at Velocity stage. -/
def getBodyVelocity (s : MSState) (b : Nat) : Except MSError SpatialVec :=
  if Stage.Velocity.toNat ≤ s.stage.toNat then
    match s.bodyVel.get? b with
    | some V => .ok V
    | none => .error .DomainError
  else .error (.StageViolation Stage.Velocity s.stage)

/-- Modelled from the spec: `setMobilizerQ` (declared at
MatterSubsystem.h:325, body not in the repository) writes one mobilizer
coordinate; §3: "Mutating q invalidates realized down to below Position",
i.e. to no higher than Time; an out-of-range index is a DomainError. -/
def setMobilizerQ (m : Matter) (s : MSState) (b idx : Nat) (val : ℚ) :
    Except MSError MSState :=
  if m.qOffset b + idx < s.q.length then
    .ok { s with
          q := s.q.set (m.qOffset b + idx) val
          stage := s.stage.minWith Stage.Time }
  else .error .DomainError

/-- A Position-stage read on an underrealized state aborts with a
StageViolation naming required vs. actual stage. -/
theorem getBodyPosition_stageViolation (s : MSState) (b : Nat)
    (h : s.stage.toNat < Stage.Position.toNat) :
    getBodyPosition s b =
      Except.error (MSError.StageViolation Stage.Position s.stage) := by
  unfold getBodyPosition
  rw [if_neg (Nat.not_le_of_lt h)]

/-- Embedded from MatterSubsystem.h:504: `getBodyPosition(s,body).R()`. -/
def getBodyRotation (s : MSState) (b : Nat) : Except MSError Mat33 :=
  match getBodyPosition s b with
  | .error e => .error e
  | .ok X => .ok X.R

/-- Embedded from MatterSubsystem.h:511: `getBodyPosition(s,body).T()`. -/
def getBodyLocation (s : MSState) (b : Nat) : Except MSError Vec3 :=
  match getBodyPosition s b with
  | .error e => .error e
  | .ok X => .ok X.T

/-- Embedded from MatterSubsystem.h:531: `getBodyPosition(s,bodyB)*stationB`. -/
def calcStationLocation (s : MSState) (bodyB : Nat) (stationB : Vec3) :
    Except MSError Vec3 :=
  match getBodyPosition s bodyB with
  | .error e => .error e
  | .ok X => .ok (X.apply stationB)

/-- Embedded from MatterSubsystem.h:537:
`~getBodyPosition(s,bodyA) * calcStationLocation(s,bodyB,stationB)`. -/
def calcStationLocationInBody (s : MSState) (bodyB : Nat) (stationB : Vec3)
    (bodyA : Nat) : Except MSError Vec3 :=
  match getBodyPosition s bodyA with
  | .error e => .error e
  | .ok XA =>
    match calcStationLocation s bodyB stationB with
    | .error e => .error e
    | .ok loc => .ok (XA.inverse.apply loc)

/-- Embedded from MatterSubsystem.h:544: `getBodyRotation(s,bodyB)*vectorB`. -/
def calcVectorOrientation (s : MSState) (bodyB : Nat) (vectorB : Vec3) :
    Except MSError Vec3 :=
  match getBodyRotation s bodyB with
  | .error e => .error e
  | .ok R2 => .ok (R2.mulVec vectorB)

/-- Embedded from MatterSubsystem.h:557-561: fetch `V_GB`, reexpress the
station in Ground, and return `V_GB[1] + V_GB[0] % stationB_G` (v + w X r). -/
def calcStationVelocity (s : MSState) (bodyB : Nat) (stationB : Vec3) :
    Except MSError Vec3 :=
  match getBodyVelocity s bodyB with
  | .error e => .error e
  | .ok V =>
    match calcVectorOrientation s bodyB stationB with
    | .error e => .error e
    | .ok stG => .ok (V.v.add (V.w.cross stG))

/-- Embedded from MatterSubsystem.h:569-580: relative spatial velocity
`Vdiff_AB = V_GB - V_GA`, offset `stationA_G` from body A's origin to
the station in G, `v_AsB_G = Vdiff_AB[1] + Vdiff_AB[0] % stationA_G`,
reexpressed in body A's frame. -/
def calcStationVelocityInBody (s : MSState) (bodyB : Nat) (stationB : Vec3)
    (bodyA : Nat) : Except MSError Vec3 :=
  match getBodyVelocity s bodyB with
  | .error e => .error e
  | .ok VB =>
    match getBodyVelocity s bodyA with
    | .error e => .error e
    | .ok VA =>
      match calcStationLocation s bodyB stationB with
      | .error e => .error e
      | .ok loc =>
        match getBodyLocation s bodyA with
        | .error e => .error e
        | .ok TA =>
          match getBodyRotation s bodyA with
          | .error e => .error e
          | .ok RA =>
            .ok (RA.transpose.mulVec
              (((VB.sub VA).v).add (((VB.sub VA).w).cross (loc.sub TA))))

/-- Embedded from MatterSubsystem.h:75-88: return body A's mass
properties unchanged when `inBodyB == objectBodyA`; otherwise build
`R_AB` from the position cache (`R_AG`, times `R_GB` unless B is Ground)
and reexpress. -/
def calcBodyMassPropertiesInBody (s : MSState) (objectBodyA inBodyB : Nat) :
    Except MSError MassProperties :=
  match getBodyMassProperties s objectBodyA with
  | .error e => .error e
  | .ok mp =>
    if inBodyB = objectBodyA then .ok mp
    else
      match getBodyPosition s objectBodyA with
      | .error e => .error e
      | .ok XA =>
        if inBodyB = GroundId then .ok (mp.reexpress XA.R.transpose)
        else
          match getBodyPosition s inBodyB with
          | .error e => .error e
          | .ok XB => .ok (mp.reexpress (XA.R.transpose.mul XB.R))

/-- Modelled from the spec: `calcBodyTransformInBody` (declared at
MatterSubsystem.h:144-147, body not in the repository) returns `X_BA`;
§4.6: cross-body queries are closed-form compositions of the two bodies'
cached transforms, so `X_BA = inverse(X_GB) · X_GA`. -/
def calcBodyTransformInBody (s : MSState) (objectBodyA inBodyB : Nat) :
    Except MSError Transform :=
  match getBodyPosition s inBodyB with
  | .error e => .error e
  | .ok XGB =>
    match getBodyPosition s objectBodyA with
    | .error e => .error e
    | .ok XGA => .ok (XGB.inverse.compose XGA)

/-- Resize a list to length `n`, keeping a prefix of the existing
entries and padding with `d` (the padding value is irrelevant in
`resetForces`, which immediately zeroes every entry). -/
def listResize {α : Type} (v : List α) (n : Nat) (d : α) : List α :=
  v.take n ++ List.replicate (n - v.length) d

/-- Embedded from MatterSubsystem.h:586-593: resize the three force
accumulators to `getNBodies()`, `getNParticles()`, `getNMobilities()`
and set them to zero. -/
def resetForces (m : Matter) (bodyForces : List SpatialVec)
    (particleForces : List Vec3) (mobilityForces : List ℚ) :
    List SpatialVec × List Vec3 × List ℚ :=
  ((listResize bodyForces (getNBodies m) SpatialVec.zero).map
      (fun _ => SpatialVec.zero),
   (listResize particleForces (getNParticles m) Vec3.zero).map
      (fun _ => Vec3.zero),
   (listResize mobilityForces (getNMobilities m) 0).map (fun _ => (0 : ℚ)))

/-- Weighted squared error `eᵗWe` for a diagonal weight matrix given by
its diagonal entries. -/
def wnormSq (W e : List ℚ) : ℚ :=
  (List.zipWith (fun wi xi => wi * xi * xi) W e).sum

/-- The comparison `‖e‖_W ≤ t` of the spec's weighted norm
`sqrt(eᵗWe)`, embedded without a square root: it holds exactly when
`t` is nonnegative and `eᵗWe ≤ t·t`. -/
def wnormLe (nsq t : ℚ) : Bool :=
  decide (0 ≤ t) && decide (nsq ≤ t * t)

/-- Modelled from the spec: the §4.5 ConstraintProjector.  The repository
declares only `projectQConstraints`/`projectUConstraints`
(MatterSubsystem.h:427,464); the constraint-error function `e`, the
diagonal weights `W`, and the minimum-weighted-norm correction
`Δ = -W⁻¹Gᵗ(GW⁻¹Gᵗ)⁻¹e` (whose Jacobian `G` comes from the external
constraint definitions, §6) are supplied by the external dynamics
implementation, so they appear here as the projector's interface:
`errAt` evaluates the error at given coordinates, `step` applies one
correction, and `strip` is the same projection operator applied to the
integrator's error estimate `y_err`.  `cap` is the §5 fixed iteration
cap, the only bounded-effort mechanism. -/
structure Projector where
  weight : List ℚ
  errAt : List ℚ → List ℚ
  step : List ℚ → List ℚ
  strip : List ℚ → List ℚ
  cap : Nat

/-- Weighted squared constraint-error norm at given coordinates. -/
def Projector.normSqAt (P : Projector) (c : List ℚ) : ℚ :=
  wnormSq P.weight (P.errAt c)

/-- Modelled from the spec: the §4.5 step-3 iteration.  Repeat the
correction, re-evaluating `e` at the corrected coordinates, until
`‖e‖_W ≤ tol` or the fixed cap is reached; per step 4, if the cap is
reached without convergence the best iterate found is kept. -/
def Projector.run (P : Projector) (tol : ℚ) : Nat → List ℚ → List ℚ
  | 0, c => c
  | Nat.succ k, c =>
    if wnormLe (P.normSqAt c) tol then c
    else if P.normSqAt (P.run tol k (P.step c)) ≤ P.normSqAt c then
      P.run tol k (P.step c)
    else c

/-- The iterates the §4.5 loop visits: the start plus every corrected
point, stopping at convergence or at the cap. -/
def Projector.visited (P : Projector) (tol : ℚ) : Nat → List ℚ → List (List ℚ)
  | 0, c => [c]
  | Nat.succ k, c =>
    if wnormLe (P.normSqAt c) tol then [c]
    else c :: P.visited tol k (P.step c)

/-- Result of a projection call: the returned boolean, the projected
coordinates left in the State, and the stripped `y_err`. -/
structure ProjResult where
  modified : Bool
  coords : List ℚ
  yerr : List ℚ
deriving DecidableEq, Repr

/-- Modelled from the spec: `projectQConstraints` (declared at
MatterSubsystem.h:422-427, body not in the repository), following §4.5:
if `‖e‖_W ≤ targetTol` already, return false with nothing touched;
otherwise iterate the correction up to the cap, apply the projection
operator to `y_err`, and return true iff the coordinates or `y_err`
were modified at all. -/
def projectQConstraints (P : Projector) (q0 yerr : List ℚ) (tol targetTol : ℚ) :
    ProjResult :=
  if wnormLe (P.normSqAt q0) targetTol then ⟨false, q0, yerr⟩
  else
    ⟨decide (¬ P.run tol P.cap q0 = q0) || decide (¬ P.strip yerr = yerr),
     P.run tol P.cap q0, P.strip yerr⟩

/-- Modelled from the spec: `projectUConstraints` (declared at
MatterSubsystem.h:459-464, body not in the repository): same contract as
the Q projection, but the velocity case is linear in `u` and needs at
most one correction (§4.5 step 3). -/
def projectUConstraints (P : Projector) (u0 yerr : List ℚ) (tol targetTol : ℚ) :
    ProjResult :=
  if wnormLe (P.normSqAt u0) targetTol then ⟨false, u0, yerr⟩
  else
    ⟨decide (¬ P.run tol 1 u0 = u0) || decide (¬ P.strip yerr = yerr),
     P.run tol 1 u0, P.strip yerr⟩

theorem wnormLe_mono {nsq a b : ℚ} (hab : a ≤ b) (h : wnormLe nsq a = true) :
    wnormLe nsq b = true := by
  simp only [wnormLe, Bool.and_eq_true, decide_eq_true_eq] at h ⊢
  exact ⟨le_trans h.1 hab, le_trans h.2 (mul_self_le_mul_self h.1 hab)⟩

theorem Projector.self_mem_visited (P : Projector) (tol : ℚ) (n : Nat)
    (c : List ℚ) : c ∈ P.visited tol n c := by
  cases n with
  | zero => simp [Projector.visited]
  | succ k =>
    unfold Projector.visited
    split
    · simp
    · exact List.mem_cons_self c _

theorem Projector.run_mem_visited (P : Projector) (tol : ℚ) :
    ∀ (n : Nat) (c : List ℚ), P.run tol n c ∈ P.visited tol n c := by
  intro n
  induction n with
  | zero => intro c; simp [Projector.run, Projector.visited]
  | succ k ih =>
    intro c
    by_cases h : wnormLe (P.normSqAt c) tol = true
    · simp [Projector.run, Projector.visited, h]
    · rw [Bool.not_eq_true] at h
      simp only [Projector.run, Projector.visited, h, Bool.false_eq_true,
        if_false]
      by_cases h2 : P.normSqAt (P.run tol k (P.step c)) ≤ P.normSqAt c
      · rw [if_pos h2]
        exact List.mem_cons_of_mem c (ih (P.step c))
      · rw [if_neg h2]
        exact List.mem_cons_self c _

theorem Projector.run_min (P : Projector) (tol : ℚ) :
    ∀ (n : Nat) (c x : List ℚ), x ∈ P.visited tol n c →
      P.normSqAt (P.run tol n c) ≤ P.normSqAt x := by
  intro n
  induction n with
  | zero =>
    intro c x hx
    simp only [Projector.visited, List.mem_singleton] at hx
    subst hx
    simp [Projector.run]
  | succ k ih =>
    intro c x hx
    by_cases h : wnormLe (P.normSqAt c) tol = true
    · simp only [Projector.visited, h, if_true, List.mem_singleton] at hx
      subst hx
      simp [Projector.run, h]
    · rw [Bool.not_eq_true] at h
      simp only [Projector.visited, h, Bool.false_eq_true, if_false,
        List.mem_cons] at hx
      simp only [Projector.run, h, Bool.false_eq_true, if_false]
      rcases hx with rfl | hx
      · by_cases h2 : P.normSqAt (P.run tol k (P.step x)) ≤ P.normSqAt x
        · rw [if_pos h2]; exact h2
        · rw [if_neg h2]
      · have hr := ih (P.step c) x hx
        by_cases h2 : P.normSqAt (P.run tol k (P.step c)) ≤ P.normSqAt c
        · rw [if_pos h2]; exact hr
        · rw [if_neg h2]
          exact le_trans (le_of_lt (lt_of_not_le h2)) hr

theorem Projector.run_le_self (P : Projector) (tol : ℚ) (n : Nat) (c : List ℚ) :
    P.normSqAt (P.run tol n c) ≤ P.normSqAt c :=
  P.run_min tol n c c (P.self_mem_visited tol n c)

/-- Modelled from the spec: the §4.3 transport of a spatial velocity
across a rigid offset, `v2 = v1 + ω × r`, with the offset `r` being the
station reexpressed in Ground (`R_GB · p`).  Stated from the spec's words
to compare against the code of `calcStationVelocity`. -/
def stationVelocityFormula (V : SpatialVec) (R_GB : Mat33) (p : Vec3) : Vec3 :=
  V.v.add (V.w.cross (R_GB.mulVec p))

/-- C2: mutating any entry of q via `setMobilizerQ` lowers the realized
stage strictly below Position; a subsequent `getBodyPosition` read
raises a StageViolation naming required vs. actual stage, and the stale
position cache is retained rather than recomputed. -/
theorem setMobilizerQ_invalidates_position (m : Matter) (s s2 : MSState)
    (b idx b2 : Nat) (v : ℚ)
    (h : setMobilizerQ m s b idx v = Except.ok s2) :
    s2.stage.toNat < Stage.Position.toNat ∧
    getBodyPosition s2 b2 =
      Except.error (MSError.StageViolation Stage.Position s2.stage) ∧
    s2.bodyPos = s.bodyPos := by
  unfold setMobilizerQ at h
  by_cases hk : m.qOffset b + idx < s.q.length
  · rw [if_pos hk] at h
    injection h with h2
    subst h2
    have hlt : (s.stage.minWith Stage.Time).toNat < Stage.Position.toNat := by
      unfold Stage.minWith
      by_cases hle : s.stage.toNat ≤ Stage.Time.toNat
      · rw [if_pos hle]
        exact Nat.lt_of_le_of_lt hle (by decide)
      · rw [if_neg hle]
        decide
    exact ⟨hlt, getBodyPosition_stageViolation _ b2 hlt, rfl⟩
  · rw [if_neg hk] at h
    simp at h

/-- C5: at Position stage, reexpressing a station on body B into B's own
frame via the cross-body query `calcStationLocationInBody (s, B, p, B)`
returns the original coordinates unchanged (exactly, over ℚ), given the
spec invariant that cached rotations are orthonormal. -/
theorem calcStationLocationInBody_same_body (s : MSState) (B : Nat) (p : Vec3)
    (X : Transform) (hB : getBodyPosition s B = Except.ok X)
    (hR : IsRot X.R) :
    calcStationLocationInBody s B p B = Except.ok p := by
  simp only [calcStationLocationInBody, calcStationLocation, hB]
  rw [Transform.inverse_apply_apply X hR p]

/-- C6: for a Position-stage state, the cross-body transform
`X_BA = calcBodyTransformInBody (s, A, B)` composed with its computed
inverse (in either order) is the identity transform, exactly over ℚ,
given the spec invariant that cached rotations are orthonormal. -/
theorem calcBodyTransformInBody_compose_inverse (s : MSState)
    (A B : Nat) (XA XB X : Transform)
    (hA : getBodyPosition s A = Except.ok XA)
    (hB : getBodyPosition s B = Except.ok XB)
    (hRA : IsRot XA.R) (hRB : IsRot XB.R)
    (hX : calcBodyTransformInBody s A B = Except.ok X) :
    X.compose X.inverse = Transform.identity ∧
    X.inverse.compose X = Transform.identity := by
  simp only [calcBodyTransformInBody, hA, hB, Except.ok.injEq] at hX
  subst hX
  have hrot : IsRot (XB.inverse.compose XA).R :=
    IsRot.mul (IsRot.transpose hRB) hRA
  exact ⟨Transform.compose_inverse_self _ hrot,
    Transform.inverse_compose_self _ hrot⟩

/-- C7: at Velocity stage, `calcStationVelocity (s, B, p)` equals the
spatial-velocity transport formula `v_GB + w_GB × (R_GB · p)`: the
cached linear velocity plus the cached angular velocity crossed with the
station offset reexpressed in Ground. -/
theorem calcStationVelocity_transport (s : MSState) (B : Nat) (p : Vec3)
    (V : SpatialVec) (X : Transform)
    (hV : getBodyVelocity s B = Except.ok V)
    (hX : getBodyPosition s B = Except.ok X) :
    calcStationVelocity s B p = Except.ok (stationVelocityFormula V X.R p) := by
  simp only [calcStationVelocity, calcVectorOrientation, getBodyRotation, hV, hX,
    stationVelocityFormula]

/-- C8: for every constructed subsystem and arbitrarily sized inputs,
`resetForces` resizes the body-force array to `getNBodies`, the
particle-force array to `getNParticles`, and the mobility-force array to
`getNMobilities`, and zeroes every entry of all three. -/
theorem resetForces_resizes_and_zeroes (m : Matter) (bodyForces : List SpatialVec)
    (particleForces : List Vec3) (mobilityForces : List ℚ) :
    resetForces m bodyForces particleForces mobilityForces =
      (List.replicate (getNBodies m) SpatialVec.zero,
       List.replicate (getNParticles m) Vec3.zero,
       List.replicate (getNMobilities m) (0 : ℚ)) := by
  have key : ∀ (α β : Type) (v : List α) (n : Nat) (d : α) (z : β),
      (listResize v n d).map (fun _ => z) = List.replicate n z := by
    intro α β v n d z
    have hconst : ∀ (l : List α), l.map (fun _ => z) = List.replicate l.length z := by
      intro l
      induction l with
      | nil => rfl
      | cons a as ih => simp [ih, List.replicate_succ]
    rw [listResize, List.map_append, hconst, hconst, List.length_replicate,
      List.length_take, ← List.replicate_add]
    congr 1
    omega
  unfold resetForces
  rw [key, key, key]

/-- C9: `calcBodyMassPropertiesInBody (s, A, A)` returns the stored mass
properties of A unchanged without consulting any Position-stage cache
entry (it succeeds whenever the Instance-stage read succeeds); only when
`inBodyB` differs from `objectBodyA` is `getBodyPosition` consulted,
which below Position stage raises a StageViolation. -/
theorem calcBodyMassPropertiesInBody_same_body (s : MSState) (A B : Nat)
    (mp : MassProperties)
    (hmp : getBodyMassProperties s A = Except.ok mp) :
    calcBodyMassPropertiesInBody s A A = Except.ok mp ∧
    (B ≠ A → s.stage.toNat < Stage.Position.toNat →
      calcBodyMassPropertiesInBody s A B =
        Except.error (MSError.StageViolation Stage.Position s.stage)) := by
  constructor
  · simp [calcBodyMassPropertiesInBody, hmp]
  · intro hne hstage
    have hpos : getBodyPosition s A =
        Except.error (MSError.StageViolation Stage.Position s.stage) := by
      unfold getBodyPosition
      rw [if_neg (Nat.not_le_of_lt hstage)]
    simp [calcBodyMassPropertiesInBody, hmp, hne, hpos]

/-- C10: at Velocity stage, the relative station velocity of a station
on body B measured in body B itself, `calcStationVelocityInBody
(s, B, p, B)`, is exactly the zero vector: the relative spatial velocity
`V_GB - V_GB` vanishes, killing both the angular and linear terms. -/
theorem calcStationVelocityInBody_same_body (s : MSState) (B : Nat) (p : Vec3)
    (V : SpatialVec) (X : Transform)
    (hV : getBodyVelocity s B = Except.ok V)
    (hX : getBodyPosition s B = Except.ok X) :
    calcStationVelocityInBody s B p B = Except.ok Vec3.zero := by
  simp only [calcStationVelocityInBody, calcStationLocation, getBodyLocation,
    getBodyRotation, hV, hX]
  rw [show V.sub V = SpatialVec.zero from by
      simp [SpatialVec.sub, Vec3.sub_self, SpatialVec.zero]]
  simp only [SpatialVec.zero, Vec3.zero_cross, Vec3.zero_add, Mat33.mulVec_zero]

/-- Early exit of the Q projection: a state already within `targetTol`
is returned untouched with a false flag. -/
theorem projectQConstraints_earlyExit (P : Projector) (c yerr : List ℚ)
    (tol targetTol : ℚ) (h : wnormLe (P.normSqAt c) targetTol = true) :
    projectQConstraints P c yerr tol targetTol = ⟨false, c, yerr⟩ := by
  unfold projectQConstraints
  rw [if_pos h]

/-- Early exit of the U projection: a state already within `targetTol`
is returned untouched with a false flag. -/
theorem projectUConstraints_earlyExit (P : Projector) (c yerr : List ℚ)
    (tol targetTol : ℚ) (h : wnormLe (P.normSqAt c) targetTol = true) :
    projectUConstraints P c yerr tol targetTol = ⟨false, c, yerr⟩ := by
  unfold projectUConstraints
  rw [if_pos h]

/-- The residual left by a Q projection never exceeds the residual of
the starting coordinates. -/
theorem projectQConstraints_norm_le (P : Projector) (c yerr : List ℚ)
    (tol targetTol : ℚ) :
    P.normSqAt (projectQConstraints P c yerr tol targetTol).coords ≤
      P.normSqAt c := by
  unfold projectQConstraints
  by_cases h : wnormLe (P.normSqAt c) targetTol = true
  · rw [if_pos h]
  · rw [Bool.not_eq_true] at h
    simp only [h, Bool.false_eq_true, if_false]
    exact P.run_le_self tol P.cap c

/-- C1: for tolerances `tol ≥ targetTol ≥ 0`, if the weighted
constraint-error norm is already at or below `targetTol` then both
projections return false and leave the coordinates and `y_err`
untouched; and in every case the returned boolean is true exactly when
the coordinates or `y_err` were modified at all. -/
theorem projectConstraints_earlyExit_modifiedIff (P : Projector)
    (q0 yerr : List ℚ) (tol targetTol : ℚ)
    (h0 : 0 ≤ targetTol) (h1 : targetTol ≤ tol) :
    (wnormLe (P.normSqAt q0) targetTol = true →
      projectQConstraints P q0 yerr tol targetTol = ⟨false, q0, yerr⟩ ∧
      projectUConstraints P q0 yerr tol targetTol = ⟨false, q0, yerr⟩) ∧
    ((projectQConstraints P q0 yerr tol targetTol).modified = true ↔
      ((projectQConstraints P q0 yerr tol targetTol).coords ≠ q0 ∨
       (projectQConstraints P q0 yerr tol targetTol).yerr ≠ yerr)) ∧
    ((projectUConstraints P q0 yerr tol targetTol).modified = true ↔
      ((projectUConstraints P q0 yerr tol targetTol).coords ≠ q0 ∨
       (projectUConstraints P q0 yerr tol targetTol).yerr ≠ yerr)) := by
  refine ⟨fun h => ⟨projectQConstraints_earlyExit P q0 yerr tol targetTol h,
    projectUConstraints_earlyExit P q0 yerr tol targetTol h⟩, ?_, ?_⟩
  · unfold projectQConstraints
    by_cases h : wnormLe (P.normSqAt q0) targetTol = true
    · rw [if_pos h]
      simp
    · rw [Bool.not_eq_true] at h
      simp only [h, Bool.false_eq_true, if_false, Bool.or_eq_true,
        decide_eq_true_eq]
  · unfold projectUConstraints
    by_cases h : wnormLe (P.normSqAt q0) targetTol = true
    · rw [if_pos h]
      simp
    · rw [Bool.not_eq_true] at h
      simp only [h, Bool.false_eq_true, if_false, Bool.or_eq_true,
        decide_eq_true_eq]

/-- C3: if every iterate the loop can visit stays above `tol`, the
projection still returns normally: the coordinates left in the State are
one of the visited iterates, are the best of them (minimal weighted
residual), and nonconvergence is observable only through that post-call
residual remaining above `tol`. -/
theorem projectConstraints_cap_keeps_best (P : Projector) (q0 yerr : List ℚ)
    (tol targetTol : ℚ) (h0 : 0 ≤ targetTol) (h1 : targetTol ≤ tol)
    (hq : ∀ x ∈ P.visited tol P.cap q0, wnormLe (P.normSqAt x) tol = false)
    (hu : ∀ x ∈ P.visited tol 1 q0, wnormLe (P.normSqAt x) tol = false) :
    ((projectQConstraints P q0 yerr tol targetTol).coords ∈
        P.visited tol P.cap q0 ∧
      (∀ x ∈ P.visited tol P.cap q0,
        P.normSqAt (projectQConstraints P q0 yerr tol targetTol).coords ≤
          P.normSqAt x) ∧
      wnormLe (P.normSqAt
        (projectQConstraints P q0 yerr tol targetTol).coords) tol = false) ∧
    ((projectUConstraints P q0 yerr tol targetTol).coords ∈
        P.visited tol 1 q0 ∧
      (∀ x ∈ P.visited tol 1 q0,
        P.normSqAt (projectUConstraints P q0 yerr tol targetTol).coords ≤
          P.normSqAt x) ∧
      wnormLe (P.normSqAt
        (projectUConstraints P q0 yerr tol targetTol).coords) tol = false) := by
  have hno : ¬ wnormLe (P.normSqAt q0) targetTol = true := by
    intro habove
    have := wnormLe_mono h1 habove
    rw [hq q0 (P.self_mem_visited tol P.cap q0)] at this
    exact Bool.false_ne_true this
  rw [Bool.not_eq_true] at hno
  constructor
  · have hco : (projectQConstraints P q0 yerr tol targetTol).coords =
        P.run tol P.cap q0 := by
      unfold projectQConstraints
      rw [hno]
      simp
    rw [hco]
    exact ⟨P.run_mem_visited tol P.cap q0, P.run_min tol P.cap q0,
      hq _ (P.run_mem_visited tol P.cap q0)⟩
  · have hco : (projectUConstraints P q0 yerr tol targetTol).coords =
        P.run tol 1 q0 := by
      unfold projectUConstraints
      rw [hno]
      simp
    rw [hco]
    exact ⟨P.run_mem_visited tol 1 q0, P.run_min tol 1 q0,
      hu _ (P.run_mem_visited tol 1 q0)⟩

/-- C4: calling `projectQConstraints` twice in succession with the same
tolerances leaves a second post-call residual no larger than the first,
and if the first call already reached `targetTol` the second call
returns false. -/
theorem projectQConstraints_twice (P : Projector) (q0 y0 : List ℚ)
    (tol targetTol : ℚ) :
    P.normSqAt (projectQConstraints P
        (projectQConstraints P q0 y0 tol targetTol).coords
        (projectQConstraints P q0 y0 tol targetTol).yerr
        tol targetTol).coords ≤
      P.normSqAt (projectQConstraints P q0 y0 tol targetTol).coords ∧
    (wnormLe (P.normSqAt (projectQConstraints P q0 y0 tol targetTol).coords)
        targetTol = true →
      (projectQConstraints P
        (projectQConstraints P q0 y0 tol targetTol).coords
        (projectQConstraints P q0 y0 tol targetTol).yerr
        tol targetTol).modified = false) := by
  constructor
  · exact projectQConstraints_norm_le P _ _ tol targetTol
  · intro h
    rw [projectQConstraints_earlyExit P _ _ tol targetTol h]

/-- A 90-degree rotation about the z axis: a concrete orthonormal
rotation for witnesses. -/
def R90 : Mat33 := ⟨⟨0, 1, 0⟩, ⟨-1, 0, 0⟩, ⟨0, 0, 1⟩⟩

/-- A concrete rigid transform used by witnesses. -/
def X1 : Transform := ⟨R90, ⟨1, 2, 3⟩⟩

/-- Concrete mass properties used by witnesses. -/
def mpEx : MassProperties := ⟨2, ⟨1, 0, 0⟩, Mat33.identity⟩

/-- A concrete spatial velocity used by witnesses. -/
def V0 : SpatialVec := ⟨⟨0, 0, 1⟩, ⟨1, 0, 0⟩⟩

/-- A concrete station used by witnesses. -/
def pEx : Vec3 := ⟨4, 5, 6⟩

/-- A one-body state realized to Position. -/
def sPos : MSState := ⟨Stage.Position, 0, [0], [0], [mpEx], [X1], []⟩

/-- A one-body state realized to Velocity. -/
def sVel : MSState := ⟨Stage.Velocity, 0, [0], [0], [mpEx], [X1], [V0]⟩

/-- A two-body state realized only to Instance. -/
def sInst : MSState := ⟨Stage.Instance, 0, [0], [0], [mpEx, mpEx], [X1], []⟩

/-- A concrete one-mobility subsystem. -/
def mEx : Matter := ⟨1, 0, 1, fun _ => 0⟩

/-- The state `setMobilizerQ mEx sPos 0 0 5` produces. -/
def sEx2 : MSState := ⟨Stage.Time, 0, [5], [0], [mpEx], [X1], []⟩

/-- A concrete projector whose correction halves the coordinates. -/
def Pex : Projector :=
  ⟨[1], fun c => c, fun c => c.map (fun x => x / 2),
   fun y => y.map (fun x => x / 2), 3⟩

/-- A concrete projector whose correction makes no progress, so the
iteration cap is always exhausted above the tolerance. -/
def Pex2 : Projector := ⟨[1], fun c => c, fun c => c, fun y => y, 2⟩

theorem setMobilizerQ_invalidates_position_witness :
    setMobilizerQ mEx sPos 0 0 5 = Except.ok sEx2 ∧
    (sEx2.stage.toNat < Stage.Position.toNat ∧
     getBodyPosition sEx2 0 =
       Except.error (MSError.StageViolation Stage.Position sEx2.stage) ∧
     sEx2.bodyPos = sPos.bodyPos) :=
  ⟨by with_unfolding_all rfl,
   setMobilizerQ_invalidates_position mEx sPos sEx2 0 0 0 5
     (by with_unfolding_all rfl)⟩

theorem calcStationLocationInBody_same_body_witness :
    getBodyPosition sPos 0 = Except.ok X1 ∧ IsRot X1.R ∧
    calcStationLocationInBody sPos 0 pEx 0 = Except.ok pEx :=
  ⟨rfl, ⟨by with_unfolding_all decide, by with_unfolding_all decide⟩,
   calcStationLocationInBody_same_body sPos 0 pEx X1 rfl
     ⟨by with_unfolding_all decide, by with_unfolding_all decide⟩⟩

theorem calcBodyTransformInBody_compose_inverse_witness :
    calcBodyTransformInBody sPos 0 0 = Except.ok Transform.identity ∧
    (Transform.identity.compose Transform.identity.inverse =
       Transform.identity ∧
     Transform.identity.inverse.compose Transform.identity =
       Transform.identity) :=
  ⟨by with_unfolding_all rfl,
   calcBodyTransformInBody_compose_inverse sPos 0 0 X1 X1
     Transform.identity rfl rfl
     ⟨by with_unfolding_all decide, by with_unfolding_all decide⟩
     ⟨by with_unfolding_all decide, by with_unfolding_all decide⟩
     (by with_unfolding_all rfl)⟩

theorem calcStationVelocity_transport_witness :
    getBodyVelocity sVel 0 = Except.ok V0 ∧
    getBodyPosition sVel 0 = Except.ok X1 ∧
    calcStationVelocity sVel 0 pEx =
      Except.ok (stationVelocityFormula V0 X1.R pEx) :=
  ⟨rfl, rfl, calcStationVelocity_transport sVel 0 pEx V0 X1 rfl rfl⟩

theorem calcBodyMassPropertiesInBody_same_body_witness :
    getBodyMassProperties sInst 1 = Except.ok mpEx ∧
    calcBodyMassPropertiesInBody sInst 1 1 = Except.ok mpEx ∧
    calcBodyMassPropertiesInBody sInst 1 0 =
      Except.error (MSError.StageViolation Stage.Position Stage.Instance) :=
  ⟨rfl, (calcBodyMassPropertiesInBody_same_body sInst 1 0 mpEx rfl).1,
   (calcBodyMassPropertiesInBody_same_body sInst 1 0 mpEx rfl).2
     (by decide) (by decide)⟩

theorem calcStationVelocityInBody_same_body_witness :
    getBodyVelocity sVel 0 = Except.ok V0 ∧
    getBodyPosition sVel 0 = Except.ok X1 ∧
    calcStationVelocityInBody sVel 0 pEx 0 = Except.ok Vec3.zero :=
  ⟨rfl, rfl, calcStationVelocityInBody_same_body sVel 0 pEx V0 X1 rfl rfl⟩

theorem projectConstraints_earlyExit_modifiedIff_witness :
    ((0 : ℚ) ≤ 1 / 2 ∧ (1 : ℚ) / 2 ≤ 1) ∧
    (projectQConstraints Pex [0] [5] 1 (1 / 2) = ⟨false, [0], [5]⟩ ∧
     projectUConstraints Pex [0] [5] 1 (1 / 2) = ⟨false, [0], [5]⟩) :=
  ⟨⟨by with_unfolding_all decide, by with_unfolding_all decide⟩,
   (projectConstraints_earlyExit_modifiedIff Pex [0] [5] 1 (1 / 2)
     (by with_unfolding_all decide) (by with_unfolding_all decide)).1
     (by with_unfolding_all decide)⟩

theorem projectConstraints_cap_keeps_best_witness :
    wnormLe (Pex2.normSqAt
      (projectQConstraints Pex2 [1] [7] (1 / 2) (1 / 4)).coords) (1 / 2) =
      false :=
  (projectConstraints_cap_keeps_best Pex2 [1] [7] (1 / 2) (1 / 4)
    (by with_unfolding_all decide) (by with_unfolding_all decide)
    (by with_unfolding_all decide) (by with_unfolding_all decide)).1.2.2

theorem projectQConstraints_twice_witness :
    Pex.normSqAt (projectQConstraints Pex
        (projectQConstraints Pex [1] [1] 1 (1 / 2)).coords
        (projectQConstraints Pex [1] [1] 1 (1 / 2)).yerr
        1 (1 / 2)).coords ≤
      Pex.normSqAt (projectQConstraints Pex [1] [1] 1 (1 / 2)).coords :=
  (projectQConstraints_twice Pex [1] [1] 1 (1 / 2)).1
